import Mathlib

/-!
# Particle sphere: point generator and frame transform updater

A shallow embedding of `ParticleSphereApp::loadModel` and
`ParticleSphereApp::updateUniformBuffer` (src/main1.cpp).

Reading of the machine types:

* `float` expressions are read exactly over an ordered field `α` (no rounding),
  extended by the IEEE special values that a division by zero produces
  (`FloatVal`). Every zero that can occur as a divisor in this program is a
  positive zero: the conversion of an unsigned integer, or its product with a
  positive number.
* `uint32_t` values are naturals below `2 ^ 32`; the one subtraction on them
  (`PARTICLE_COUNT - 1`) wraps modulo `2 ^ 32`.
* The scalar library functions the program calls (`std::sqrt`, `std::cos`,
  `std::sin`, `tan`, and the factor of `glm::radians`) are parameters of the
  model (`MathLib`); the theorems instantiate them with the real functions.
* `glm::rotate`, `glm::lookAt`, `glm::perspective` and the vector helpers they use
  are transcribed from GLM (right handed, depth range -1 to 1: the defaults without
  `GLM_FORCE_LEFT_HANDED` and `GLM_FORCE_DEPTH_ZERO_TO_ONE`).
-/

namespace ParticleSphere

/-! ## Float values -/

/-- The value of a `float` expression read exactly: a number of the field, a signed
infinity, or NaN. -/
inductive FloatVal (α : Type) where
  | num (a : α)
  | inf (negative : Bool)
  | nan
  deriving DecidableEq

namespace FloatVal

variable {α : Type} [LinearOrderedField α]

/-- Unary minus. -/
def neg : FloatVal α → FloatVal α
  | num a => num (-a)
  | inf s => inf (!s)
  | nan => nan

/-- Addition: opposite infinities give NaN. -/
def add : FloatVal α → FloatVal α → FloatVal α
  | num a, num b => num (a + b)
  | num _, inf s => inf s
  | inf s, num _ => inf s
  | inf s, inf t => if s = t then inf s else nan
  | _, _ => nan

/-- Subtraction. -/
def sub (x y : FloatVal α) : FloatVal α := add x (neg y)

/-- Multiplication: zero times infinity gives NaN. -/
def mul : FloatVal α → FloatVal α → FloatVal α
  | num a, num b => num (a * b)
  | num a, inf s => if a = 0 then nan else inf (xor (decide (a < 0)) s)
  | inf s, num b => if b = 0 then nan else inf (xor s (decide (b < 0)))
  | inf s, inf t => inf (xor s t)
  | _, _ => nan

/-- Division: `0 / 0` and `inf / inf` give NaN, a nonzero number over zero gives the
infinity of the sign of the numerator (the zero divisor is a positive zero). -/
def div : FloatVal α → FloatVal α → FloatVal α
  | num a, num b =>
    if b = 0 then (if a = 0 then nan else inf (decide (a < 0))) else num (a / b)
  | num _, inf _ => num 0
  | inf s, num b => inf (xor s (decide (b < 0)))
  | _, _ => nan

/-- Square root (`std::sqrt`): NaN on a negative argument. -/
def sqrt (f : α → α) : FloatVal α → FloatVal α
  | num a => if a < 0 then nan else num (f a)
  | inf false => inf false
  | _ => nan

/-- The functions `std::cos`, `std::sin`, `tan`: NaN on a non-finite argument. -/
def trig (f : α → α) : FloatVal α → FloatVal α
  | num a => num (f a)
  | _ => nan

/-- Conversion of an unsigned integer to `float`. -/
def ofNat (n : Nat) : FloatVal α := num (n : α)

instance : Neg (FloatVal α) := ⟨neg⟩
instance : Add (FloatVal α) := ⟨add⟩
instance : Sub (FloatVal α) := ⟨sub⟩
instance : Mul (FloatVal α) := ⟨mul⟩
instance : Div (FloatVal α) := ⟨div⟩

end FloatVal

/-- The scalar library functions used by the program. -/
structure MathLib (α : Type) where
  /-- Function `std::sqrt` on non-negative numbers -/
  sqrt : α → α
  /-- Function `std::cos` -/
  cos : α → α
  /-- Function `std::sin` -/
  sin : α → α
  /-- Function `tan` -/
  tan : α → α
  /-- The factor `glm::radians` multiplies its argument by (pi / 180) -/
  radPerDeg : α

/-! ## Data model -/

/-- Type `glm::vec3`. -/
structure Vec3 (β : Type) where
  x : β
  y : β
  z : β
  deriving DecidableEq

/-- Type `glm::vec4`. -/
structure Vec4 (β : Type) where
  x : β
  y : β
  z : β
  w : β
  deriving DecidableEq

/-- Type `glm::mat4`: four columns, `m[c]` is column `c` and `m[c][r]` its row `r`. -/
structure Mat4 (β : Type) where
  c0 : Vec4 β
  c1 : Vec4 β
  c2 : Vec4 β
  c3 : Vec4 β
  deriving DecidableEq

/-- Record `Vertex`. -/
structure Vertex (β : Type) where
  pos : Vec3 β
  color : Vec3 β
  deriving DecidableEq

/-- Record `UniformBufferObject`. -/
structure UniformBufferObject (β : Type) where
  model : Mat4 β
  view : Mat4 β
  proj : Mat4 β
  deriving DecidableEq

/-- What a call can end in other than a normal return: the `InvalidArgument` of the
specification's taxonomy, and an access outside a `std::vector` (undefined behaviour in
the source). -/
inductive Fault where
  | invalidArgument
  | outOfRange
  deriving DecidableEq

/-! ## `loadModel` -/

section LoadModel

variable {α : Type} [LinearOrderedField α]

open FloatVal

/-- Unsigned 32-bit `n - 1`. -/
def u32Pred (n : Nat) : Nat := (n + 2 ^ 32 - 1) % 2 ^ 32

/-- The constant `phi` of `loadModel`: `3.14159265359f * (3.0f - std::sqrt(5.0f))`. -/
def goldenAngle (m : MathLib α) : FloatVal α :=
  num (314159265359 / 100000000000) * (num 3 - FloatVal.sqrt m.sqrt (num 5))

/-- The body of the loop of `loadModel` at index `i`: the vertex stored in
`vertices[i]`. -/
def loadModelBody (m : MathLib α) (count : Nat) (phi : FloatVal α) (i : Nat) :
    Vertex (FloatVal α) :=
  let y := num 1 - (ofNat i / ofNat (u32Pred count)) * num 2
  let radius := FloatVal.sqrt m.sqrt (num 1 - y * y)
  let theta := phi * ofNat i
  let x := trig m.cos theta * radius
  let z := trig m.sin theta * radius
  let r := (y + num 1) * num (1 / 2)
  let b := num 1 - r
  { pos := ⟨x, y, z⟩, color := ⟨r, num (1 / 5), b⟩ }

/-- The number that `y = 1.0f - (i / float(PARTICLE_COUNT - 1)) * 2.0f` evaluates to when
the subtraction does not wrap and the divisor is not zero. -/
def yCoord (count i : Nat) : α := 1 - (i : α) / ((count - 1 : Nat) : α) * 2

/-- A value-initialised `Vertex` (what `resize` appends). -/
def zeroVertex : Vertex (FloatVal α) :=
  { pos := ⟨num 0, num 0, num 0⟩, color := ⟨num 0, num 0, num 0⟩ }

/-- Call `std::vector::resize (n)`. -/
def resize (vs : List (Vertex (FloatVal α))) (n : Nat) : List (Vertex (FloatVal α)) :=
  vs.take n ++ List.replicate (n - vs.length) zeroVertex

/-- Method `loadModel`, for a particle count `count` (the member `PARTICLE_COUNT`) and
the previous contents of the member `vertices`: the new contents of `vertices`. The
source has no `throw`, the call always returns. -/
def loadModel (m : MathLib α) (count : Nat) (vertices : List (Vertex (FloatVal α))) :
    Except Fault (List (Vertex (FloatVal α))) :=
  let vertices := resize vertices count
  let phi := goldenAngle m
  .ok ((List.range count).foldl (fun vs i => vs.set i (loadModelBody m count phi i)) vertices)

end LoadModel

/-! ## GLM -/

section Glm

variable {α : Type} [LinearOrderedField α]

open FloatVal

/-- Product `v * s` of a `vec3` and a scalar. -/
def Vec3.scale (v : Vec3 (FloatVal α)) (s : FloatVal α) : Vec3 (FloatVal α) :=
  ⟨v.x * s, v.y * s, v.z * s⟩

/-- Difference of two `vec3`. -/
def Vec3.sub (a b : Vec3 (FloatVal α)) : Vec3 (FloatVal α) :=
  ⟨a.x - b.x, a.y - b.y, a.z - b.z⟩

/-- Function `glm::dot` on `vec3`. -/
def dot (a b : Vec3 (FloatVal α)) : FloatVal α :=
  a.x * b.x + a.y * b.y + a.z * b.z

/-- Function `glm::cross`. -/
def cross (a b : Vec3 (FloatVal α)) : Vec3 (FloatVal α) :=
  ⟨a.y * b.z - b.y * a.z, a.z * b.x - b.z * a.x, a.x * b.y - b.x * a.y⟩

/-- Function `glm::inversesqrt`: `1 / sqrt(x)`. -/
def inversesqrt (m : MathLib α) (x : FloatVal α) : FloatVal α :=
  num 1 / FloatVal.sqrt m.sqrt x

/-- Function `glm::normalize`: `v * inversesqrt(dot(v, v))`. -/
def normalize (m : MathLib α) (v : Vec3 (FloatVal α)) : Vec3 (FloatVal α) :=
  v.scale (inversesqrt m (dot v v))

/-- Function `glm::radians`: the degrees times a constant factor. -/
def radians (m : MathLib α) (degrees : FloatVal α) : FloatVal α :=
  degrees * num m.radPerDeg

/-- Product `v * s` of a `vec4` and a scalar. -/
def Vec4.scale (v : Vec4 (FloatVal α)) (s : FloatVal α) : Vec4 (FloatVal α) :=
  ⟨v.x * s, v.y * s, v.z * s, v.w * s⟩

/-- Sum of two `vec4`. -/
def Vec4.add (a b : Vec4 (FloatVal α)) : Vec4 (FloatVal α) :=
  ⟨a.x + b.x, a.y + b.y, a.z + b.z, a.w + b.w⟩

/-- The matrix `glm::mat4(s)`: `s` on the diagonal, zero elsewhere. -/
def Mat4.diag (s : α) : Mat4 (FloatVal α) :=
  { c0 := ⟨num s, num 0, num 0, num 0⟩
    c1 := ⟨num 0, num s, num 0, num 0⟩
    c2 := ⟨num 0, num 0, num s, num 0⟩
    c3 := ⟨num 0, num 0, num 0, num s⟩ }

/-- Product `m * v` of a `mat4` and a `vec4` (GLM's `operator*`): the combination of the
columns of `m` with the components of `v`. -/
def Mat4.mulVec (m : Mat4 (FloatVal α)) (v : Vec4 (FloatVal α)) : Vec4 (FloatVal α) :=
  ((m.c0.scale v.x).add (m.c1.scale v.y)).add ((m.c2.scale v.z).add (m.c3.scale v.w))

/-- Row `r = 1` (the Y row) of a matrix: the entries `m[c][1]`. -/
def Mat4.rowY {β : Type} (p : Mat4 β) : Vec4 β :=
  ⟨p.c0.y, p.c1.y, p.c2.y, p.c3.y⟩

/-- Function `glm::rotate (m, angle, v)`. -/
def rotate (lib : MathLib α) (m : Mat4 (FloatVal α)) (angle : FloatVal α)
    (v : Vec3 (FloatVal α)) : Mat4 (FloatVal α) :=
  let c := trig lib.cos angle
  let s := trig lib.sin angle
  let axis := normalize lib v
  let temp := axis.scale (num 1 - c)
  let r00 := c + temp.x * axis.x
  let r01 := temp.x * axis.y + s * axis.z
  let r02 := temp.x * axis.z - s * axis.y
  let r10 := temp.y * axis.x - s * axis.z
  let r11 := c + temp.y * axis.y
  let r12 := temp.y * axis.z + s * axis.x
  let r20 := temp.z * axis.x + s * axis.y
  let r21 := temp.z * axis.y - s * axis.x
  let r22 := c + temp.z * axis.z
  { c0 := ((m.c0.scale r00).add (m.c1.scale r01)).add (m.c2.scale r02)
    c1 := ((m.c0.scale r10).add (m.c1.scale r11)).add (m.c2.scale r12)
    c2 := ((m.c0.scale r20).add (m.c1.scale r21)).add (m.c2.scale r22)
    c3 := m.c3 }

/-- Function `glm::lookAt (eye, center, up)` (right handed). -/
def lookAt (lib : MathLib α) (eye center up : Vec3 (FloatVal α)) : Mat4 (FloatVal α) :=
  let f := normalize lib (center.sub eye)
  let s := normalize lib (cross f up)
  let u := cross s f
  { c0 := ⟨s.x, u.x, -f.x, num 0⟩
    c1 := ⟨s.y, u.y, -f.y, num 0⟩
    c2 := ⟨s.z, u.z, -f.z, num 0⟩
    c3 := ⟨-dot s eye, -dot u eye, dot f eye, num 1⟩ }

/-- Function `glm::perspective (fovy, aspect, zNear, zFar)` (right handed, depth range
-1 to 1). Its debug assertion on `aspect` is compiled out and not part of the model. -/
def perspective (lib : MathLib α) (fovy aspect zNear zFar : FloatVal α) :
    Mat4 (FloatVal α) :=
  let tanHalfFovy := trig lib.tan (fovy / num 2)
  { c0 := ⟨num 1 / (aspect * tanHalfFovy), num 0, num 0, num 0⟩
    c1 := ⟨num 0, num 1 / tanHalfFovy, num 0, num 0⟩
    c2 := ⟨num 0, num 0, -(zFar + zNear) / (zFar - zNear), -num 1⟩
    c3 := ⟨num 0, num 0, -(num 2 * zFar * zNear) / (zFar - zNear), num 0⟩ }

end Glm

/-! ## `updateUniformBuffer` -/

section Update

variable {α : Type} [LinearOrderedField α]

open FloatVal

/-- The expression `swapChainExtent.width / (float) swapChainExtent.height`. -/
def aspectOf (width height : Nat) : FloatVal α :=
  ofNat width / ofNat height

/-- The model matrix of `updateUniformBuffer` at elapsed time `time`. -/
def modelMatrix (lib : MathLib α) (time : α) : Mat4 (FloatVal α) :=
  rotate lib (Mat4.diag 1) (num time * radians lib (num 45)) ⟨num 0, num 0, num 1⟩

/-- The view matrix of `updateUniformBuffer`. -/
def viewMatrix (lib : MathLib α) : Mat4 (FloatVal α) :=
  lookAt lib ⟨num 2, num 2, num 2⟩ ⟨num 0, num 0, num 0⟩ ⟨num 0, num 0, num 1⟩

/-- The value of `glm::perspective (...)` in `updateUniformBuffer`, before the flip. -/
def unflippedProj (lib : MathLib α) (width height : Nat) : Mat4 (FloatVal α) :=
  perspective lib (radians lib (num 45)) (aspectOf width height) (num (1 / 10)) (num 10)

/-- The statement `ubo.proj[1][1] *= -1`. -/
def flipY (p : Mat4 (FloatVal α)) : Mat4 (FloatVal α) :=
  { p with c1 := { p.c1 with y := p.c1.y * num (-1) } }

/-- The `ubo` that `updateUniformBuffer` builds from the elapsed time and the extent. -/
def computeUbo (lib : MathLib α) (time : α) (width height : Nat) :
    UniformBufferObject (FloatVal α) :=
  { model := modelMatrix lib time
    view := viewMatrix lib
    proj := flipY (unflippedProj lib width height) }

/-- Method `updateUniformBuffer (currentImage)`: `time` is the elapsed time read from the
clock, `width` and `height` the member `swapChainExtent`, `mapped` the contents of the
regions the entries of `uniformBuffersMapped` point to. The result is the new contents;
indexing the vector at or beyond its size is `Fault.outOfRange`. -/
def updateUniformBuffer (lib : MathLib α) (time : α) (width height : Nat)
    (mapped : List (UniformBufferObject (FloatVal α))) (currentImage : Nat) :
    Except Fault (List (UniformBufferObject (FloatVal α))) :=
  let ubo := computeUbo lib time width height
  if !mapped.isEmpty then
    if currentImage < mapped.length then .ok (mapped.set currentImage ubo)
    else .error Fault.outOfRange
  else .ok mapped

end Update

/-! ## Arithmetic on finite values -/

namespace FloatVal

variable {α : Type} [LinearOrderedField α]

@[simp] theorem num_add_num (a b : α) : (num a + num b : FloatVal α) = num (a + b) := rfl

@[simp] theorem num_sub_num (a b : α) : (num a - num b : FloatVal α) = num (a - b) := by
  show add (num a) (neg (num b)) = num (a - b)
  simp [add, neg, sub_eq_add_neg]

@[simp] theorem num_mul_num (a b : α) : (num a * num b : FloatVal α) = num (a * b) := rfl

@[simp] theorem neg_num (a : α) : (-(num a) : FloatVal α) = num (-a) := rfl

theorem num_div_num (a b : α) (hb : b ≠ 0) : (num a / num b : FloatVal α) = num (a / b) := by
  show div (num a) (num b) = num (a / b)
  simp [div, hb]

theorem num_div_zero (a : α) :
    (num a / num 0 : FloatVal α) = if a = 0 then nan else inf (decide (a < 0)) := by
  show div (num a) (num 0) = _
  simp [div]

theorem sqrt_num (f : α → α) (a : α) (ha : 0 ≤ a) : sqrt f (num a) = num (f a) := by
  simp [sqrt, not_lt.mpr ha]

omit [LinearOrderedField α] in
@[simp] theorem trig_num (f : α → α) (a : α) : trig f (num a) = num (f a) := rfl

@[simp] theorem ofNat_eq (n : Nat) : (ofNat n : FloatVal α) = num (n : α) := rfl

end FloatVal

/-! ## The loop of `loadModel` as a map -/

theorem foldl_set_getElem? {β : Type} (f : Nat → β) (k : Nat) (vs : List β) (j : Nat) :
    ((List.range k).foldl (fun l i => l.set i (f i)) vs)[j]? =
      if j < k ∧ j < vs.length then some (f j) else vs[j]? := by
  induction k with
  | zero => simp
  | succ k ih =>
    rw [List.range_succ, List.foldl_append]
    simp only [List.foldl_cons, List.foldl_nil]
    have hlen : ∀ (n : Nat) (l : List β),
        ((List.range n).foldl (fun l i => l.set i (f i)) l).length = l.length := by
      intro n
      induction n with
      | zero => simp
      | succ n ihn =>
        intro l
        rw [List.range_succ, List.foldl_append]
        simp [ihn]
    rw [List.getElem?_set, hlen, ih]
    by_cases hkj : k = j
    · subst hkj
      by_cases hk : k < vs.length
      · simp [hk]
      · simp [hk, List.getElem?_eq_none (not_lt.mp hk)]
    · have hiff : (j < k + 1) ↔ (j < k) := by omega
      simp [hkj, hiff]

theorem foldl_set_eq_map {β : Type} (f : Nat → β) (vs : List β) :
    (List.range vs.length).foldl (fun l i => l.set i (f i)) vs = (List.range vs.length).map f := by
  apply List.ext_getElem?
  intro j
  rw [foldl_set_getElem?]
  by_cases hj : j < vs.length
  · simp [hj, List.getElem?_range hj]
  · have h1 : vs[j]? = none := List.getElem?_eq_none (not_lt.mp hj)
    have h2 : (List.map f (List.range vs.length))[j]? = none :=
      List.getElem?_eq_none (by simpa using not_lt.mp hj)
    simp [hj, h1, h2]

section LoadModelLemmas

variable {α : Type} [LinearOrderedField α]

open FloatVal

theorem length_resize (vs : List (Vertex (FloatVal α))) (n : Nat) :
    (resize vs n).length = n := by
  simp only [resize, List.length_append, List.length_take, List.length_replicate]
  omega

/-- The loop of `loadModel` stores the loop body at every index below the count. -/
theorem loadModel_eq_map (m : MathLib α) (count : Nat) (vertices : List (Vertex (FloatVal α))) :
    loadModel m count vertices =
      .ok ((List.range count).map (loadModelBody m count (goldenAngle m))) := by
  have h := foldl_set_eq_map (loadModelBody m count (goldenAngle m)) (resize vertices count)
  rw [length_resize] at h
  simp only [loadModel, h]

theorem u32Pred_of_pos (n : Nat) (h0 : 0 < n) (h32 : n < 2 ^ 32) : u32Pred n = n - 1 := by
  unfold u32Pred
  omega

theorem yCoord_bounds (count i : Nat) (hcount : 2 ≤ count) (hi : i < count) :
    (-1 : α) ≤ (yCoord count i : α) ∧ (yCoord count i : α) ≤ 1 := by
  have hd : (0 : α) < ((count - 1 : Nat) : α) := by
    exact_mod_cast (by omega : 0 < count - 1)
  have hle : (i : α) ≤ ((count - 1 : Nat) : α) := by
    exact_mod_cast (by omega : i ≤ count - 1)
  have h0 : (0 : α) ≤ (i : α) / ((count - 1 : Nat) : α) :=
    div_nonneg (Nat.cast_nonneg i) hd.le
  have h1 : (i : α) / ((count - 1 : Nat) : α) ≤ 1 := (div_le_one hd).mpr hle
  unfold yCoord
  constructor <;> linarith

theorem one_sub_sq_nonneg (count i : Nat) (hcount : 2 ≤ count) (hi : i < count) :
    (0 : α) ≤ 1 - (yCoord count i : α) * yCoord count i := by
  obtain ⟨h1, h2⟩ := yCoord_bounds (α := α) count i hcount hi
  nlinarith

/-- The loop body on a valid count: every component is a finite number. -/
theorem loadModelBody_num (m : MathLib α) (count i : Nat) (p : α)
    (hcount : 2 ≤ count) (h32 : count < 2 ^ 32) (hi : i < count) :
    loadModelBody m count (num p) i =
      { pos := ⟨num (m.cos (p * i) * m.sqrt (1 - yCoord count i * yCoord count i)),
                num (yCoord count i),
                num (m.sin (p * i) * m.sqrt (1 - yCoord count i * yCoord count i))⟩
        color := ⟨num ((yCoord count i + 1) * (1 / 2)), num (1 / 5),
                  num (1 - (yCoord count i + 1) * (1 / 2))⟩ } := by
  have hd : ((count - 1 : Nat) : α) ≠ 0 := by
    have : (0 : α) < ((count - 1 : Nat) : α) := by exact_mod_cast (by omega : 0 < count - 1)
    exact this.ne.symm
  have hrad := one_sub_sq_nonneg (α := α) count i hcount hi
  simp only [loadModelBody, u32Pred_of_pos count (by omega) h32, ofNat_eq, num_div_num _ _ hd,
    num_mul_num, num_sub_num, num_add_num, trig_num]
  rw [show (1 : α) - (↑i / ↑(count - 1) * 2) = yCoord count i from rfl]
  simp only [sqrt_num _ _ hrad, num_mul_num]

theorem goldenAngle_num (m : MathLib α) :
    goldenAngle m = num (314159265359 / 100000000000 * (3 - m.sqrt 5)) := by
  simp [goldenAngle, sqrt_num]

end LoadModelLemmas

/-! ## The point generator over the reals

In the theorems below `lib` is the library of the real functions: `Real.sqrt`, `Real.cos`,
`Real.sin`, `Real.tan`, and `pi / 180` for the factor of `glm::radians`. -/

section LoadModelReal

open FloatVal

theorem yCoord_real (count i : Nat) (hcount : 2 ≤ count) :
    (yCoord count i : ℝ) = 1 - (i : ℝ) / ((count : ℝ) - 1) * 2 := by
  unfold yCoord
  rw [Nat.cast_sub (by omega : 1 ≤ count)]
  simp

/-- C1: for every particle count `N ≥ 2` and every index `i < N`, `loadModel` returns and
the position `(x, y, z)` of particle `i` has finite components with
`y = 1 - 2i/(N-1)`, `1 - y^2 ≥ 0`, `x = cos θ * sqrt (1 - y^2)`,
`z = sin θ * sqrt (1 - y^2)` for `θ = phi * i`, and `x^2 + y^2 + z^2 = 1`. -/
theorem loadModel_position_on_unit_sphere (count i : Nat)
    (vertices : List (Vertex (FloatVal ℝ)))
    (hcount : 2 ≤ count) (h32 : count < 2 ^ 32) (hi : i < count) :
    let lib : MathLib ℝ := ⟨Real.sqrt, Real.cos, Real.sin, Real.tan, Real.pi / 180⟩
    ∃ vs x y z θ,
      loadModel lib count vertices = .ok vs ∧
      vs[i]?.map Vertex.pos = some ⟨num x, num y, num z⟩ ∧
      y = 1 - (i : ℝ) / ((count : ℝ) - 1) * 2 ∧
      0 ≤ 1 - y ^ 2 ∧
      θ = 314159265359 / 100000000000 * (3 - Real.sqrt 5) * i ∧
      x = Real.cos θ * Real.sqrt (1 - y ^ 2) ∧
      z = Real.sin θ * Real.sqrt (1 - y ^ 2) ∧
      x ^ 2 + y ^ 2 + z ^ 2 = 1 := by
  intro lib
  have hrad : (0 : ℝ) ≤ 1 - (yCoord count i : ℝ) ^ 2 := by
    have := one_sub_sq_nonneg (α := ℝ) count i hcount hi
    rwa [sq]
  refine ⟨_, _, yCoord count i, _, _, loadModel_eq_map lib count vertices, ?_,
    yCoord_real count i hcount, hrad, rfl, rfl, rfl, ?_⟩
  · simp only [List.getElem?_map, List.getElem?_range hi, Option.map_some', goldenAngle_num,
      loadModelBody_num _ count i _ hcount h32 hi, sq, lib]
  · have hs : Real.sqrt (1 - (yCoord count i : ℝ) ^ 2) ^ 2 = 1 - (yCoord count i : ℝ) ^ 2 :=
      Real.sq_sqrt hrad
    have hcs := Real.sin_sq_add_cos_sq
      (314159265359 / 100000000000 * (3 - Real.sqrt 5) * (i : ℝ))
    generalize Real.sqrt (1 - (yCoord count i : ℝ) ^ 2) = s at hs ⊢
    generalize Real.cos (314159265359 / 100000000000 * (3 - Real.sqrt 5) * (i : ℝ)) = c
      at hcs ⊢
    generalize Real.sin (314159265359 / 100000000000 * (3 - Real.sqrt 5) * (i : ℝ)) = d
      at hcs ⊢
    have : (c * s) ^ 2 + (yCoord count i : ℝ) ^ 2 + (d * s) ^ 2
        = (d ^ 2 + c ^ 2) * s ^ 2 + (yCoord count i : ℝ) ^ 2 := by ring
    rw [this, hcs, hs]
    ring

/-- Witness of C1 at the program's particle count 5000, particle 17. -/
theorem loadModel_position_on_unit_sphere_witness :
    let lib : MathLib ℝ := ⟨Real.sqrt, Real.cos, Real.sin, Real.tan, Real.pi / 180⟩
    ∃ vs x y z θ,
      loadModel lib 5000 [] = .ok vs ∧
      vs[17]?.map Vertex.pos = some ⟨num x, num y, num z⟩ ∧
      y = 1 - ((17 : Nat) : ℝ) / (((5000 : Nat) : ℝ) - 1) * 2 ∧
      0 ≤ 1 - y ^ 2 ∧
      θ = 314159265359 / 100000000000 * (3 - Real.sqrt 5) * (17 : Nat) ∧
      x = Real.cos θ * Real.sqrt (1 - y ^ 2) ∧
      z = Real.sin θ * Real.sqrt (1 - y ^ 2) ∧
      x ^ 2 + y ^ 2 + z ^ 2 = 1 :=
  loadModel_position_on_unit_sphere 5000 17 [] (by decide) (by decide) (by decide)

/-- C2: for every particle count `N ≥ 2` and every index `i < N`, the colour of particle
`i` is `(r, 0.2, b)` with `r = (y + 1) / 2` and `b = 1 - r` finite, and each of the three
components lies in `[0, 1]`. -/
theorem loadModel_color_in_unit_interval (count i : Nat)
    (vertices : List (Vertex (FloatVal ℝ)))
    (hcount : 2 ≤ count) (h32 : count < 2 ^ 32) (hi : i < count) :
    let lib : MathLib ℝ := ⟨Real.sqrt, Real.cos, Real.sin, Real.tan, Real.pi / 180⟩
    ∃ vs r g b,
      loadModel lib count vertices = .ok vs ∧
      vs[i]?.map Vertex.color = some ⟨num r, num g, num b⟩ ∧
      r = ((1 - (i : ℝ) / ((count : ℝ) - 1) * 2) + 1) / 2 ∧ g = 1 / 5 ∧ b = 1 - r ∧
      (0 ≤ r ∧ r ≤ 1) ∧ (0 ≤ g ∧ g ≤ 1) ∧ (0 ≤ b ∧ b ≤ 1) := by
  intro lib
  obtain ⟨h1, h2⟩ := yCoord_bounds (α := ℝ) count i hcount hi
  refine ⟨_, (yCoord count i + 1) * (1 / 2), 1 / 5, 1 - (yCoord count i + 1) * (1 / 2),
    loadModel_eq_map lib count vertices, ?_, ?_, rfl, rfl, ⟨?_, ?_⟩, ⟨?_, ?_⟩, ⟨?_, ?_⟩⟩
  · simp only [List.getElem?_map, List.getElem?_range hi, Option.map_some', goldenAngle_num,
      loadModelBody_num _ count i _ hcount h32 hi, lib]
  · rw [yCoord_real count i hcount]
    ring
  all_goals linarith

/-- Witness of C2 at the program's particle count 5000, particle 4999. -/
theorem loadModel_color_in_unit_interval_witness :
    let lib : MathLib ℝ := ⟨Real.sqrt, Real.cos, Real.sin, Real.tan, Real.pi / 180⟩
    ∃ vs r g b,
      loadModel lib 5000 [] = .ok vs ∧
      vs[4999]?.map Vertex.color = some ⟨num r, num g, num b⟩ ∧
      r = ((1 - ((4999 : Nat) : ℝ) / (((5000 : Nat) : ℝ) - 1) * 2) + 1) / 2 ∧
      g = 1 / 5 ∧ b = 1 - r ∧
      (0 ≤ r ∧ r ≤ 1) ∧ (0 ≤ g ∧ g ≤ 1) ∧ (0 ≤ b ∧ b ≤ 1) :=
  loadModel_color_in_unit_interval 5000 4999 [] (by decide) (by decide) (by decide)

/-- C3, as stated, fails: for the particle count 0 `loadModel` does not fail with
`InvalidArgument`, it returns the empty particle sequence. -/
theorem loadModel_zero_not_rejected :
    let lib : MathLib ℝ := ⟨Real.sqrt, Real.cos, Real.sin, Real.tan, Real.pi / 180⟩
    loadModel lib 0 [] = .ok [] ∧ loadModel lib 0 [] ≠ .error Fault.invalidArgument := by
  intro lib
  constructor
  · rw [loadModel_eq_map]; rfl
  · rw [loadModel_eq_map]; simp

/-- C3, amended: `loadModel` validates nothing; for every particle count `N`, also 0 and
1, it returns a particle sequence of length `N` and never fails with `InvalidArgument`. -/
theorem loadModel_always_returns (count : Nat) (vertices : List (Vertex (FloatVal ℝ))) :
    let lib : MathLib ℝ := ⟨Real.sqrt, Real.cos, Real.sin, Real.tan, Real.pi / 180⟩
    ∃ vs, loadModel lib count vertices = .ok vs ∧ vs.length = count ∧
      loadModel lib count vertices ≠ .error Fault.invalidArgument := by
  intro lib
  refine ⟨_, loadModel_eq_map lib count vertices, by simp, ?_⟩
  rw [loadModel_eq_map]
  simp

/-- C4, as stated, fails at `N = 1`: the divisor `float(N - 1)` is 0, the loop body runs
at `i = 0` and evaluates `0 / 0`; the one particle has NaN for `x`, `y`, `z`, `r`, `b`. -/
theorem loadModel_one_has_nan :
    let lib : MathLib ℝ := ⟨Real.sqrt, Real.cos, Real.sin, Real.tan, Real.pi / 180⟩
    (ofNat (u32Pred 1) : FloatVal ℝ) = num 0 ∧
      loadModel lib 1 [] =
        .ok [{ pos := ⟨nan, nan, nan⟩, color := ⟨nan, num (1 / 5), nan⟩ }] := by
  intro lib
  have hp : u32Pred 1 = 0 := by decide
  constructor
  · simp [hp]
  · rw [loadModel_eq_map]
    simp only [List.range_succ, List.range_zero, List.nil_append, List.map_cons, List.map_nil,
      loadModelBody, hp, ofNat_eq, Nat.cast_zero, num_div_zero, if_true, goldenAngle_num]
    rfl

/-- C4, amended: for `N = 0` the unsigned `N - 1` wraps to `2^32 - 1`, the loop body does
not run and the output is empty, so no particle has a NaN component; for `N = 1` the
divisor is 0, the body runs at `i = 0`, evaluates `0 / 0`, and the one particle has NaN
for every component but `g`. -/
theorem loadModel_zero_empty_one_nan (vertices : List (Vertex (FloatVal ℝ))) :
    let lib : MathLib ℝ := ⟨Real.sqrt, Real.cos, Real.sin, Real.tan, Real.pi / 180⟩
    u32Pred 0 = 2 ^ 32 - 1 ∧
      loadModel lib 0 vertices = .ok [] ∧
      (ofNat (u32Pred 1) : FloatVal ℝ) = num 0 ∧
      loadModel lib 1 vertices =
        .ok [{ pos := ⟨nan, nan, nan⟩, color := ⟨nan, num (1 / 5), nan⟩ }] := by
  intro lib
  have hp : u32Pred 1 = 0 := by decide
  refine ⟨by decide, ?_, by simp [hp], ?_⟩
  · rw [loadModel_eq_map]; rfl
  · rw [loadModel_eq_map]
    simp only [List.range_succ, List.range_zero, List.nil_append, List.map_cons, List.map_nil,
      loadModelBody, hp, ofNat_eq, Nat.cast_zero, num_div_zero, if_true, goldenAngle_num]
    rfl

end LoadModelReal

/-! ## The frame transforms over the reals -/

section UpdateReal

open FloatVal

/-- The model matrix at elapsed time `t` is the rotation by `t * (45 * (pi / 180))` about
the z axis, written out. -/
theorem modelMatrix_real (t : ℝ) :
    modelMatrix (⟨Real.sqrt, Real.cos, Real.sin, Real.tan, Real.pi / 180⟩ : MathLib ℝ) t =
      { c0 := ⟨num (Real.cos (t * (45 * (Real.pi / 180)))),
               num (Real.sin (t * (45 * (Real.pi / 180)))), num 0, num 0⟩
        c1 := ⟨num (-Real.sin (t * (45 * (Real.pi / 180)))),
               num (Real.cos (t * (45 * (Real.pi / 180)))), num 0, num 0⟩
        c2 := ⟨num 0, num 0, num 1, num 0⟩
        c3 := ⟨num 0, num 0, num 0, num 1⟩ } := by
  have h1 : (num 1 / num 1 : FloatVal ℝ) = num 1 := by
    rw [num_div_num _ _ one_ne_zero]; simp
  simp [modelMatrix, rotate, normalize, inversesqrt, dot, radians, Mat4.diag, Vec3.scale,
    Vec4.scale, Vec4.add, sqrt_num, h1]

theorem tan_half_fovy_pos : 0 < Real.tan (45 * (Real.pi / 180) / 2) := by
  have hpi := Real.pi_pos
  apply Real.tan_pos_of_pos_of_lt_pi_div_two
  · linarith
  · linarith

/-- The value of `glm::perspective` in `updateUniformBuffer`, in terms of the aspect. -/
theorem unflippedProj_real (width height : Nat) :
    unflippedProj (⟨Real.sqrt, Real.cos, Real.sin, Real.tan, Real.pi / 180⟩ : MathLib ℝ)
        width height =
      { c0 := ⟨num 1 / (aspectOf width height * num (Real.tan (45 * (Real.pi / 180) / 2))),
               num 0, num 0, num 0⟩
        c1 := ⟨num 0, num (1 / Real.tan (45 * (Real.pi / 180) / 2)), num 0, num 0⟩
        c2 := ⟨num 0, num 0, num (-(10 + 1 / 10) / (10 - 1 / 10)), num (-1)⟩
        c3 := ⟨num 0, num 0, num (-(2 * 10 * (1 / 10)) / (10 - 1 / 10)), num 0⟩ } := by
  have h2 : (num (45 * (Real.pi / 180)) / num 2 : FloatVal ℝ)
      = num (45 * (Real.pi / 180) / 2) := num_div_num _ _ two_ne_zero
  have hT : (num 1 / num (Real.tan (45 * (Real.pi / 180) / 2)) : FloatVal ℝ)
      = num (1 / Real.tan (45 * (Real.pi / 180) / 2)) :=
    num_div_num _ _ tan_half_fovy_pos.ne.symm
  have hz (a : ℝ) : (num a / num (10 - 1 / 10) : FloatVal ℝ) = num (a / (10 - 1 / 10)) :=
    num_div_num _ _ (by norm_num)
  simp only [unflippedProj, perspective, radians, num_mul_num, h2, trig_num, hT, num_add_num,
    num_sub_num, neg_num, hz]

theorem aspectOf_of_ne_zero (width height : Nat) (hh : height ≠ 0) :
    (aspectOf width height : FloatVal ℝ) = num ((width : ℝ) / (height : ℝ)) := by
  simp only [aspectOf, ofNat_eq]
  exact num_div_num _ _ (by exact_mod_cast hh)

theorem aspectOf_height_zero (width : Nat) :
    (aspectOf width 0 : FloatVal ℝ) = if width = 0 then nan else inf false := by
  simp only [aspectOf, ofNat_eq, Nat.cast_zero, num_div_zero, Nat.cast_eq_zero]
  have : ¬ ((width : ℝ) < 0) := not_lt.mpr (Nat.cast_nonneg width)
  simp [this]

/-- C7: for every viewport with `height ≠ 0` the aspect `width / height` is a finite
number, the un-flipped matrix `u` is `perspective(radians 45, width / height, 0.1, 10)`,
and the projection `p` of `updateUniformBuffer` differs from it only in row Y: every entry
outside that row is unchanged, entry `[1][1]` goes from `1 / tan(fov/2)` to
`-1 / tan(fov/2)`, and row Y of `p` is the negation of row Y of `u`. -/
theorem proj_is_y_flipped_perspective (t : ℝ) (width height : Nat) (hh : height ≠ 0) :
    let lib : MathLib ℝ := ⟨Real.sqrt, Real.cos, Real.sin, Real.tan, Real.pi / 180⟩
    let u := unflippedProj lib width height
    let p := (computeUbo lib t width height).proj
    ∃ T : ℝ, T = Real.tan (45 * (Real.pi / 180) / 2) ∧ T ≠ 0 ∧
      u = perspective lib (num (45 * (Real.pi / 180))) (num ((width : ℝ) / (height : ℝ)))
            (num (1 / 10)) (num 10) ∧
      p.c0 = u.c0 ∧ p.c2 = u.c2 ∧ p.c3 = u.c3 ∧
      p.c1.x = u.c1.x ∧ p.c1.z = u.c1.z ∧ p.c1.w = u.c1.w ∧
      u.c1.y = num (1 / T) ∧ p.c1.y = num (-1 / T) ∧
      p.rowY = ⟨-u.c0.y, -u.c1.y, -u.c2.y, -u.c3.y⟩ := by
  intro lib u p
  refine ⟨_, rfl, tan_half_fovy_pos.ne.symm, ?_, rfl, rfl, rfl, rfl, rfl, rfl, ?_, ?_, ?_⟩
  · simp [u, lib, unflippedProj, radians, aspectOf_of_ne_zero width height hh]
  · simp only [u, lib]
    rw [unflippedProj_real]
  · simp only [p, lib, computeUbo, flipY]
    rw [unflippedProj_real]
    simp [neg_div]
  · simp only [p, u, lib, computeUbo, flipY, Mat4.rowY]
    rw [unflippedProj_real]
    simp

/-- Witness of C7 at the program's extent 800 x 600, elapsed time 2. -/
theorem proj_is_y_flipped_perspective_witness :
    let lib : MathLib ℝ := ⟨Real.sqrt, Real.cos, Real.sin, Real.tan, Real.pi / 180⟩
    let u := unflippedProj lib 800 600
    let p := (computeUbo lib 2 800 600).proj
    ∃ T : ℝ, T = Real.tan (45 * (Real.pi / 180) / 2) ∧ T ≠ 0 ∧
      u = perspective lib (num (45 * (Real.pi / 180)))
            (num (((800 : Nat) : ℝ) / ((600 : Nat) : ℝ))) (num (1 / 10)) (num 10) ∧
      p.c0 = u.c0 ∧ p.c2 = u.c2 ∧ p.c3 = u.c3 ∧
      p.c1.x = u.c1.x ∧ p.c1.z = u.c1.z ∧ p.c1.w = u.c1.w ∧
      u.c1.y = num (1 / T) ∧ p.c1.y = num (-1 / T) ∧
      p.rowY = ⟨-u.c0.y, -u.c1.y, -u.c2.y, -u.c3.y⟩ :=
  proj_is_y_flipped_perspective 2 800 600 (by decide)

/-- The call never ends in `InvalidArgument`, whatever the extent. -/
theorem updateUniformBuffer_ne_invalidArgument (lib : MathLib ℝ) (t : ℝ) (width height : Nat)
    (mapped : List (UniformBufferObject (FloatVal ℝ))) (currentImage : Nat) :
    updateUniformBuffer lib t width height mapped currentImage
      ≠ .error Fault.invalidArgument := by
  unfold updateUniformBuffer
  by_cases he : mapped.isEmpty = true <;> by_cases hk : currentImage < mapped.length <;>
    simp [he, hk]

/-- A slot in range is written. -/
theorem updateUniformBuffer_of_lt (lib : MathLib ℝ) (t : ℝ) (width height : Nat)
    (mapped : List (UniformBufferObject (FloatVal ℝ))) (currentImage : Nat)
    (hk : currentImage < mapped.length) :
    updateUniformBuffer lib t width height mapped currentImage
      = .ok (mapped.set currentImage (computeUbo lib t width height)) := by
  have hne : mapped.isEmpty = false := by
    cases mapped with
    | nil => simp at hk
    | cons a l => rfl
  simp [updateUniformBuffer, hne, hk]

/-- The `[0][0]` entry of the projection when the height is 0. -/
theorem proj_c0_x_height_zero (t : ℝ) (width : Nat) :
    (computeUbo (⟨Real.sqrt, Real.cos, Real.sin, Real.tan, Real.pi / 180⟩ : MathLib ℝ)
      t width 0).proj.c0.x = if width = 0 then nan else num 0 := by
  have hT := tan_half_fovy_pos
  simp only [computeUbo, flipY]
  rw [unflippedProj_real, aspectOf_height_zero]
  by_cases hw : width = 0
  · simp only [hw, if_true]
    rfl
  · simp only [hw, if_false]
    show div (num 1) (mul (inf false) (num _)) = num 0
    simp [mul, div, hT.ne.symm, not_lt.mpr hT.le]

/-- C6, as stated, fails: with one mapped slot and `currentImage = 1` the slot is not
provisioned, yet the guard `!uniformBuffersMapped.empty()` passes and the vector is
indexed out of range. -/
theorem updateUniformBuffer_index_beyond_size :
    let lib : MathLib ℝ := ⟨Real.sqrt, Real.cos, Real.sin, Real.tan, Real.pi / 180⟩
    updateUniformBuffer lib 0 800 600 [computeUbo lib 0 800 600] 1
      = .error Fault.outOfRange := by
  intro lib
  simp [updateUniformBuffer]

/-- C6, amended: when slot `currentImage` is provisioned (`currentImage` is below the
number of mapped slots) the call writes the computed (model, view, proj) triple into that
slot and leaves every other slot unchanged; when no slot is mapped the call is a no-op. -/
theorem updateUniformBuffer_writes_slot (t : ℝ) (width height : Nat)
    (mapped : List (UniformBufferObject (FloatVal ℝ))) (currentImage : Nat)
    (h : currentImage < mapped.length ∨ mapped = []) :
    let lib : MathLib ℝ := ⟨Real.sqrt, Real.cos, Real.sin, Real.tan, Real.pi / 180⟩
    ∃ out, updateUniformBuffer lib t width height mapped currentImage = .ok out ∧
      out.length = mapped.length ∧
      out[currentImage]? =
        (if currentImage < mapped.length then some (computeUbo lib t width height)
          else none) ∧
      (∀ j, j ≠ currentImage → out[j]? = mapped[j]?) ∧
      (mapped = [] → out = []) := by
  intro lib
  rcases h with hk | he
  · refine ⟨_, updateUniformBuffer_of_lt lib t width height mapped currentImage hk,
      ?_, ?_, ?_, ?_⟩
    · simp
    · simp [hk]
    · intro j hj
      rw [List.getElem?_set]
      simp [Ne.symm hj]
    · intro he
      simp [he]
  · subst he
    exact ⟨[], by simp [updateUniformBuffer], rfl, by simp, fun _ _ => rfl, fun _ => rfl⟩

/-- Witness of C6, amended: two mapped slots, the second one written. -/
theorem updateUniformBuffer_writes_slot_witness :
    let lib : MathLib ℝ := ⟨Real.sqrt, Real.cos, Real.sin, Real.tan, Real.pi / 180⟩
    ∃ out, updateUniformBuffer lib 2 800 600
        [computeUbo lib 0 800 600, computeUbo lib 1 800 600] 1 = .ok out ∧
      out.length = [computeUbo lib 0 800 600, computeUbo lib 1 800 600].length ∧
      out[1]? =
        (if 1 < [computeUbo lib 0 800 600, computeUbo lib 1 800 600].length
          then some (computeUbo lib 2 800 600) else none) ∧
      (∀ j, j ≠ 1 → out[j]? = [computeUbo lib 0 800 600, computeUbo lib 1 800 600][j]?) ∧
      ([computeUbo lib 0 800 600, computeUbo lib 1 800 600] = [] → out = []) :=
  updateUniformBuffer_writes_slot 2 800 600
    [computeUbo _ 0 800 600, computeUbo _ 1 800 600] 1 (Or.inl (by decide))

end UpdateReal

end ParticleSphere
